import Mathlib

/-!
Verification development for a web-content harvesting service
(two near-duplicate JavaScript variants: `src/app.js` and `src/unnamed/part_000`).

The definitions below are shallow embeddings of the source functions:
strings are `String`/`List Char`, the JavaScript regular-expression passes of
`processData` are written as left-to-right scanning state machines with the
exact semantics of the source patterns, stateful routes are folds over their
inputs that record the observable events (scheduled pipelines, saved files,
scheduled deletions), and the dynamically-typed parts (a cache hit returning a
raw string where a Promise is expected) are modelled with an explicit sum type.
-/

namespace Harvest

/-! ## Character classes of the JavaScript regexes

`\s` (whitespace) and `\w` (word characters) as used by the source patterns
`/http\S+/g`, `/\s+/g` and `/([^\w\s]|_)\1+/g`.
-/

/-- JavaScript `\s`: space, tab, line terminators and the Unicode spaces. -/
def isSpaceJS (c : Char) : Bool :=
  c == ' ' || c == '\t' || c == '\n' || c == '\x0b' || c == '\x0c' || c == '\r' ||
  c == '\u00A0' || c == '\u1680' || ('\u2000' ≤ c && c ≤ '\u200A') ||
  c == '\u2028' || c == '\u2029' || c == '\u202F' || c == '\u205F' ||
  c == '\u3000' || c == '\uFEFF'

/-- JavaScript `\w`: ASCII letters, digits and underscore. -/
def isWordJS (c : Char) : Bool :=
  ('a' ≤ c && c ≤ 'z') || ('A' ≤ c && c ≤ 'Z') || ('0' ≤ c && c ≤ '9') || c == '_'

/-- The character class `([^\w\s]|_)` of the third pass: a character that is
neither a word character nor whitespace, or an underscore. -/
def isSymbJS (c : Char) : Bool :=
  (!isWordJS c && !isSpaceJS c) || c == '_'

/-! ## Pass 1: `text.replace(/http\S+/g, '')`

A match starts at any position whose next five characters are `h t t p` and a
non-whitespace character, and greedily extends over the following
non-whitespace run; the whole match is deleted and scanning resumes after it.
-/

/-- Does the list start with `http` followed by at least one non-whitespace
character (the condition for `/http\S+/` to match here)? -/
def startsHttpToken : List Char → Bool
  | 'h' :: 't' :: 't' :: 'p' :: d :: _ => !isSpaceJS d
  | _ => false

/-- Scanner mode for pass 1: `normal` scanning, or inside a match that still
has `n` unconditional characters to consume before skipping the remaining
non-whitespace run (`skip 0` = skip to the next whitespace). -/
inductive RhtMode
  | normal
  | skip (n : Nat)

/-- The scanning machine of `replace(/http\S+/g, '')`. -/
def rhtAux : RhtMode → List Char → List Char
  | _, [] => []
  | .normal, c :: cs =>
    if startsHttpToken (c :: cs) then rhtAux (.skip 3) cs
    else c :: rhtAux .normal cs
  | .skip (n + 1), _ :: cs => rhtAux (.skip n) cs
  | .skip 0, c :: cs =>
    if isSpaceJS c then c :: rhtAux .normal cs else rhtAux (.skip 0) cs

/-- `text.replace(/http\S+/g, '')`. -/
def removeHttpTokens (l : List Char) : List Char :=
  rhtAux .normal l

/-! ## Pass 2: `.replace(/\s+/g, ' ')` -/

/-- The scanning machine of `replace(/\s+/g, ' ')`: the flag records whether
the previous character belonged to a whitespace run already replaced. -/
def cwsAux : Bool → List Char → List Char
  | _, [] => []
  | prevWs, c :: cs =>
    if isSpaceJS c then
      if prevWs then cwsAux true cs else ' ' :: cwsAux true cs
    else c :: cwsAux false cs

/-- `.replace(/\s+/g, ' ')`. -/
def collapseWs (l : List Char) : List Char :=
  cwsAux false l

/-! ## Pass 3: `.replace(/([^\w\s]|_)\1+/g, '')`

A run of two or more identical symbol characters is deleted outright; a lone
symbol character is kept (the backreference `\1+` requires at least one
repeat).
-/

/-- Scanner mode for pass 3: `normal`; `pending p` after one occurrence of the
symbol character `p` (kept unless the next character repeats it); `skipRun p`
inside a run of `p` that is being deleted. -/
inductive RsrMode
  | normal
  | pending (p : Char)
  | skipRun (p : Char)

/-- The scanning machine of `replace(/([^\w\s]|_)\1+/g, '')`. -/
def rsrAux : RsrMode → List Char → List Char
  | .normal, [] => []
  | .pending p, [] => [p]
  | .skipRun _, [] => []
  | .normal, c :: cs =>
    if isSymbJS c then rsrAux (.pending c) cs else c :: rsrAux .normal cs
  | .pending p, c :: cs =>
    if c = p then rsrAux (.skipRun p) cs
    else p :: (if isSymbJS c then rsrAux (.pending c) cs else c :: rsrAux .normal cs)
  | .skipRun p, c :: cs =>
    if c = p then rsrAux (.skipRun p) cs
    else if isSymbJS c then rsrAux (.pending c) cs
    else c :: rsrAux .normal cs

/-- `.replace(/([^\w\s]|_)\1+/g, '')`. -/
def removeSymbRuns (l : List Char) : List Char :=
  rsrAux .normal l

/-! ## `.trim()` and `processData` -/

/-- JavaScript `String.prototype.trim`: strip whitespace from both ends. -/
def trimJS (l : List Char) : List Char :=
  ((l.dropWhile fun c => isSpaceJS c).reverse.dropWhile fun c => isSpaceJS c).reverse

/-- `processData` (`src/app.js` lines 114-120, `src/unnamed/part_000` lines
256-262): URL-token removal, whitespace collapsing, symbol-run deletion, trim,
in that order. -/
def processData (l : List Char) : List Char :=
  trimJS (removeSymbRuns (collapseWs (removeHttpTokens l)))

/-- `processData` on `String`. -/
def processDataStr (s : String) : String :=
  String.mk (processData s.data)

/-- Weight of a pass-3 scanner mode: a `pending` mode still owes one output
character. -/
def rsrPend : RsrMode → Nat
  | .pending _ => 1
  | _ => 0

/-! ## URL Fetcher (`fetchWebPage`, `src/unnamed/part_000` lines 128-222)

The fetcher first consults the in-memory cache and — a point the claims care
about — returns the cached *string itself* on a hit, not a promise.  On a miss
it issues an HTTPS request for `https://` URLs (falling back to HTTP once on a
connection-level error) and an HTTP request otherwise, and classifies each
response: 200 succeeds with the body, 403 with a `server: cloudflare` header
resolves with the challenge sentinel string `'skip'`, and every other status
rejects with an error carrying the status code and status message.
-/

/-- The part of an HTTP response the fetcher inspects. -/
structure HttpResponse where
  statusCode : Nat
  statusMessage : String
  serverHeader : Option String
  body : String
  deriving DecidableEq

/-- Rejection values of the fetcher: an HTTP error status (code and reason)
or a connection-level failure. -/
inductive FetchError
  | httpStatus (code : Nat) (reason : String)
  | connection (msg : String)
  deriving DecidableEq

/-- Response classification, as performed identically at each of the three
response sites of `fetchWebPage` (part_000 lines 148-165, 170-187, 197-214):
200 resolves with the body, 403 + `server: cloudflare` resolves with the
challenge sentinel `"skip"`, anything else rejects. -/
def classifyResponse (r : HttpResponse) : Except FetchError String :=
  if r.statusCode = 200 then .ok r.body
  else if r.statusCode = 403 ∧ r.serverHeader = some "cloudflare" then .ok "skip"
  else .error (.httpStatus r.statusCode r.statusMessage)

/-- Outcome of one transport attempt: a response, or a connection error. -/
inductive TransportResult
  | response (r : HttpResponse)
  | connError (msg : String)

/-- The network environment of one fetch: what the HTTPS attempt and the HTTP
attempt would each produce. -/
structure FetchEnv where
  httpsResult : TransportResult
  httpResult : TransportResult

/-- Does the URL declare the secure scheme (`url.startsWith('https://')`)? -/
def startsWithHttps (u : String) : Bool :=
  match u.data with
  | 'h' :: 't' :: 't' :: 'p' :: 's' :: ':' :: '/' :: '/' :: _ => true
  | _ => false

/-- The network part of `fetchWebPage` (cache miss): HTTPS first for secure
URLs with a one-shot fallback to HTTP on a connection error, plain HTTP
otherwise; each response goes through `classifyResponse`.  (The caching of
200-bodies is modelled separately; it does not affect the claims below.) -/
def fetchNetwork (url : String) (env : FetchEnv) : Except FetchError String :=
  if startsWithHttps url then
    match env.httpsResult with
    | .response r => classifyResponse r
    | .connError _ =>
      match env.httpResult with
      | .response r => classifyResponse r
      | .connError m => .error (.connection ("Error fetching web page: " ++ m))
  else
    match env.httpResult with
    | .response r => classifyResponse r
    | .connError m => .error (.connection ("Error fetching web page: " ++ m))

/-- What a call to `fetchWebPage` evaluates to in JavaScript: a `Promise`
(cache miss) or — because `if (url in cache) return cache[url];` returns the
stored value directly — the raw cached string (cache hit). -/
inductive JsFetchReturn
  | promise (result : Except FetchError String)
  | raw (s : String)

/-- Exact-match association-list lookup, mirroring `url in cache` /
`cache[url]`. -/
def cacheLookup : List (String × String) → String → Option String
  | [], _ => none
  | (k, v) :: rest, u => if k = u then some v else cacheLookup rest u

/-- `fetchWebPage(url)` (part_000 lines 128-222, app.js lines 54-58 for the
cache check): the cached string itself on a hit, a promise on a miss. -/
def fetchWebPageJs (cache : List (String × String)) (url : String) (env : FetchEnv) :
    JsFetchReturn :=
  match cacheLookup cache url with
  | some v => .raw v
  | none => .promise (fetchNetwork url env)

/-! ## Ephemeral Artifact Store (`saveData`, app.js lines 122-137,
part_000 lines 264-279) -/

/-- A persisted artifact file: its path and its exact content. -/
structure SavedFile where
  path : String
  data : String
  deriving DecidableEq

/-- One hexadecimal digit, lowercase, as `JSON.stringify` prints control
characters. -/
def hexDigit (n : Nat) : Char :=
  if n < 10 then Char.ofNat ('0'.toNat + n) else Char.ofNat ('a'.toNat + (n - 10))

/-- `JSON.stringify` escaping of one character inside a string literal. -/
def jsonEscapeChar (c : Char) : List Char :=
  if c = '"' then ['\\', '"']
  else if c = '\\' then ['\\', '\\']
  else if c = '\x08' then ['\\', 'b']
  else if c = '\x0c' then ['\\', 'f']
  else if c = '\n' then ['\\', 'n']
  else if c = '\r' then ['\\', 'r']
  else if c = '\t' then ['\\', 't']
  else if c.toNat < 0x20 then
    ['\\', 'u', '0', '0', hexDigit (c.toNat / 16), hexDigit (c.toNat % 16)]
  else [c]

/-- `JSON.stringify` of a string value. -/
def jsonStringifyString (s : String) : String :=
  String.mk ('"' :: (s.data.map jsonEscapeChar).flatten ++ ['"'])

/-- The serialized content `saveData` writes:
`outputFormat === 'json' ? JSON.stringify({ title, content: processedText }) :
processedText`.  (`JSON.stringify` of this object prints the keys in
insertion order with no extra whitespace.)  The source selects the structured
format by the literal format string `"json"` and writes the normalized text
verbatim for every other format string. -/
def saveDataContent (title processedText outputFormat : String) : String :=
  if outputFormat = "json" then
    "\x7b\"title\":" ++ jsonStringifyString title ++
      ",\"content\":" ++ jsonStringifyString processedText ++ "\x7d"
  else processedText

/-- The file `saveData(url, title, processedText, folderName, outputFormat)`
writes: `${folderName}/${domain}.${outputFormat}` (the `__dirname` prefix of
the source is a constant and omitted), where `domain` is the hostname of the
URL.  Hostname extraction (`new URL(url).hostname`, a WHATWG URL parse) is
abstracted as the parameter `hostOf`. -/
def saveDataFile (hostOf : String → String)
    (url title processedText folderName outputFormat : String) : SavedFile :=
  { path := folderName ++ "/" ++ hostOf url ++ "." ++ outputFormat,
    data := saveDataContent title processedText outputFormat }

/-! ## Explicit-list pipeline (`processUrl`, app.js lines 345-357,
part_000 lines 505-517)

`processUrl` chains `.then` on whatever `fetchWebPage` returned.  On a cache
hit that value is a plain string, which has no `then` method, so the call
throws a `TypeError` synchronously.  On a promise, the then-branch runs
scrape → processData → saveData unconditionally — there is no check for the
challenge sentinel, so a fetch that resolved with `'skip'` is scraped and
saved like any page.  HTML extraction (`scrapeData`, backed by the cheerio
library) is abstracted as the parameter `extract`, returning
`(title, bodyContent)`. -/

/-- The JavaScript error `processUrl` raises on a cache hit:
`fetchWebPage(...).then is not a function`. -/
inductive JsError
  | thenNotAFunction
  deriving DecidableEq

/-- `processUrl(url, outputFormat, folderName)`: the saved artifacts (or the
synchronous `TypeError`).  A rejected fetch promise is caught and only
logged — nothing is saved. -/
def processUrlJs (cache : List (String × String)) (env : FetchEnv)
    (extract : String → String × String) (hostOf : String → String)
    (url outputFormat folderName : String) : Except JsError (List SavedFile) :=
  match fetchWebPageJs cache url env with
  | .raw _ => .error .thenNotAFunction
  | .promise (.error _) => .ok []
  | .promise (.ok htmlContent) =>
    let ex := extract htmlContent
    .ok [saveDataFile hostOf url ex.1 (processDataStr ex.2) folderName outputFormat]

/-- The artifacts a `processUrl` call actually wrote (none when it threw). -/
def savedOf : Except JsError (List SavedFile) → List SavedFile
  | .ok fs => fs
  | .error _ => []

/-- A network environment in which the HTTPS attempt yields a 403 with a
`server: cloudflare` header — the anti-bot challenge outcome. -/
def challengeEnv : FetchEnv :=
  { httpsResult := .response
      { statusCode := 403, statusMessage := "Forbidden",
        serverHeader := some "cloudflare", body := "" },
    httpResult := .connError "unreachable" }

/-! ## Explicit-list orchestrator (`app.post('/file')`, app.js lines 176-212,
part_000 lines 321-356)

The route iterates over the uploaded lines, skipping blank ones, scheduling
`processUrl` for each non-blank URL while the counter is below 50, and
sending the caller a partial-processing notice when a non-blank URL beyond
the cap is encountered.  (The `return` inside the `forEach` callback only
ends that iteration, and over-cap iterations schedule nothing, so the set of
scheduled pipelines is unaffected by it.) -/

/-- `url.trim() !== ''`. -/
def nonblankLine (u : String) : Bool :=
  !(trimJS u.data).isEmpty

/-- The scheduling loop of the `/file` route, threading `urlCount`.  Returns
the list of URLs dispatched to `processUrl` (in order) and whether the
partial-processing notice was sent. -/
def fileLoopGo : List String → Nat → List String × Bool
  | [], _ => ([], false)
  | url :: rest, n =>
    if nonblankLine url then
      if 50 ≤ n then ((fileLoopGo rest n).1, true)
      else (url :: (fileLoopGo rest (n + 1)).1, (fileLoopGo rest (n + 1)).2)
    else fileLoopGo rest n

/-- The `/file` route on the uploaded lines. -/
def fileRoute (lines : List String) : List String × Bool :=
  fileLoopGo lines 0

/-! ## Search Discovery Engine (`app.post('/bulk')` search loop,
app.js lines 239-267, part_000 lines 381-411)

For pages 1..20 the route fetches one search-results page, appends every
link that survives the filters to `searchResults`, and — only after the whole
page has been processed — breaks when `searchResults.length >=
websitesNumber`.  A failed page fetch contributes no candidates and the loop
proceeds.  `pages p` abstracts the filtered candidate URLs contributed by
page `p` (empty on a fetch error); link extraction and filtering
(`decodeURIComponent`, `new URL` validity, the exclusion list, the PDF test)
do not affect the counting behaviour the claims are about. -/

/-- The paginated search loop: `remaining` pages still allowed, current
`page` index, accumulator `acc`.  Returns (number of search-page fetches
issued, final `searchResults`). -/
def discoverGo (pages : Nat → List String) (desired : Nat) :
    Nat → Nat → List String → Nat × List String
  | 0, _, acc => (0, acc)
  | remaining + 1, page, acc =>
    if desired ≤ (acc ++ pages page).length then (1, acc ++ pages page)
    else ((discoverGo pages desired remaining (page + 1) (acc ++ pages page)).1 + 1,
          (discoverGo pages desired remaining (page + 1) (acc ++ pages page)).2)

/-- The whole search loop: pages 1..20. -/
def discoverLoop (pages : Nat → List String) (desired : Nat) : Nat × List String :=
  discoverGo pages desired 20 1 []

/-- Concatenation of the candidates of `count` consecutive pages starting at
`start`. -/
def candRange (pages : Nat → List String) : Nat → Nat → List String
  | _, 0 => []
  | start, count + 1 => pages start ++ candRange pages (start + 1) count

/-! ## Discovery-mode harvesting loop (part_000 lines 412-445)

For each candidate URL not already in `processedUrls`: skip PDFs, fetch, skip
the challenge sentinel (`htmlContent === 'skip'`), otherwise scrape, process,
save, push the URL onto `processedUrls`, and break once the session directory
holds 20 files.  Fetch outcomes are modelled by `fetchOf`: the resolved
string (which is the sentinel exactly when it equals `"skip"`), or a
rejection.  Storage is modelled as reliable (a `writeFileSync` that throws
would only remove URLs from the saved list). -/

/-- Outcome of awaiting `fetchWebPage` for a candidate URL. -/
inductive FetchOutcome
  | resolved (s : String)
  | err

/-- `resultUrl.endsWith('.pdf')`. -/
def endsWithPdf (u : String) : Bool :=
  match u.data.reverse with
  | 'f' :: 'd' :: 'p' :: '.' :: _ => true
  | _ => false

/-- The per-URL harvesting loop of the `/bulk` route.  Returns the final
`processedUrls` and the list of URLs whose artifact was written (in write
order); the file count that drives the `>= 20` break is the number of
distinct hostnames saved, since artifacts are named by hostname. -/
def bulkGo (fetchOf : String → FetchOutcome) (hostOf : String → String) :
    List String → List String → List String → List String × List String
  | [], processed, saved => (processed, saved)
  | u :: rest, processed, saved =>
    if u ∈ processed then bulkGo fetchOf hostOf rest processed saved
    else if endsWithPdf u then bulkGo fetchOf hostOf rest processed saved
    else
      match fetchOf u with
      | .err => bulkGo fetchOf hostOf rest processed saved
      | .resolved htmlContent =>
        if htmlContent = "skip" then bulkGo fetchOf hostOf rest processed saved
        else if 20 ≤ (((saved ++ [u]).map hostOf).dedup).length then
          (processed ++ [u], saved ++ [u])
        else bulkGo fetchOf hostOf rest (processed ++ [u]) (saved ++ [u])

/-! ## `/bulk` route traces for the deletion-scheduling invariant
(app.js lines 230-236 and 269-302, part_000 lines 372-465) -/

/-- The deletion-relevant events of one `/bulk` request: whether the session
directory was created up front, and how many directory-deletion timers were
scheduled. -/
structure BulkRouteTrace where
  dirCreated : Bool
  scheduledDeletions : Nat
  deriving DecidableEq

/-- The harvesting loop of the app.js `/bulk` variant (lines 269-287): no PDF
or sentinel check, and the loop breaks once `processedUrls.length >=
websitesNumber`.  `fetchOfA u = some body` models a fulfilled fetch, `none` a
rejected one. -/
def appBulkGo (fetchOfA : String → Option String) (desired : Nat) :
    List String → List String → List String → List String × List String
  | [], processed, saved => (processed, saved)
  | u :: rest, processed, saved =>
    if u ∈ processed then appBulkGo fetchOfA desired rest processed saved
    else
      match fetchOfA u with
      | none => appBulkGo fetchOfA desired rest processed saved
      | some _ =>
        if desired ≤ (processed ++ [u]).length then (processed ++ [u], saved ++ [u])
        else appBulkGo fetchOfA desired rest (processed ++ [u]) (saved ++ [u])

/-- The app.js `/bulk` route's deletion events: `fs.mkdirSync` runs up front
(line 236); every successful `saveData` schedules one deletion timer (lines
142-154); the route itself schedules none. -/
def bulkRouteAppTrace (fetchOfA : String → Option String) (desired : Nat)
    (results : List String) : BulkRouteTrace :=
  { dirCreated := true,
    scheduledDeletions := (appBulkGo fetchOfA desired results [] []).2.length }

/-- The part_000 `/bulk` route's deletion events: the directory is created up
front (line 378), every `saveData` schedules one timer (lines 284-296), and
the route additionally always schedules one deletion after responding (lines
455-457). -/
def bulkRouteV2Trace (fetchOf : String → FetchOutcome) (hostOf : String → String)
    (results : List String) : BulkRouteTrace :=
  { dirCreated := true,
    scheduledDeletions := (bulkGo fetchOf hostOf results [] []).2.length + 1 }

/-! ## Archive Packager (`app.get('/download/:folderName')`,
app.js lines 305-343, part_000 lines 475-503) -/

/-- What a filesystem path currently is. -/
inductive FsEntry
  | file
  | dir
  deriving DecidableEq

/-- `fs.existsSync` + `fs.lstatSync(..).isDirectory()` over a small
filesystem model. -/
def fsKind : List (String × FsEntry) → String → Option FsEntry
  | [], _ => none
  | (p, k) :: rest, q => if p = q then some k else fsKind rest q

/-- Outcome of the download route: the HTTP status and the archive path it
creates (if any). -/
structure DownloadResult where
  status : Nat
  archivePath : Option String
  deriving DecidableEq

/-- The `/download/:folderName` route: only when the session directory exists
and is a directory does it create `${folderName}.zip` and stream it;
otherwise it answers 404 and touches nothing. -/
def downloadRoute (fsState : List (String × FsEntry)) (folderName : String) :
    DownloadResult :=
  if fsKind fsState folderName = some .dir then
    { status := 200, archivePath := some (folderName ++ ".zip") }
  else
    { status := 404, archivePath := none }

end Harvest

namespace Harvest

/-! ## Length bounds for the normalizer passes -/

theorem rhtAux_length (l : List Char) : ∀ m : RhtMode, (rhtAux m l).length ≤ l.length := by
  induction l with
  | nil => intro m; cases m with
    | normal => simp [rhtAux]
    | skip n => cases n <;> simp [rhtAux]
  | cons c cs ih =>
    intro m
    cases m with
    | normal =>
      rw [rhtAux]
      split
      · exact Nat.le_trans (ih _) (Nat.le_succ _)
      · simpa using ih RhtMode.normal
    | skip n =>
      cases n with
      | zero =>
        rw [rhtAux]
        split
        · simpa using ih RhtMode.normal
        · exact Nat.le_trans (ih _) (Nat.le_succ _)
      | succ k =>
        rw [rhtAux]
        exact Nat.le_trans (ih _) (Nat.le_succ _)

theorem cwsAux_length (l : List Char) : ∀ b : Bool, (cwsAux b l).length ≤ l.length := by
  induction l with
  | nil => intro b; simp [cwsAux]
  | cons c cs ih =>
    intro b
    rw [cwsAux]
    split
    · split
      · exact Nat.le_trans (ih _) (Nat.le_succ _)
      · simpa using ih true
    · simpa using ih false

theorem rsrAux_length (l : List Char) :
    ∀ m : RsrMode, (rsrAux m l).length ≤ rsrPend m + l.length := by
  induction l with
  | nil => intro m; cases m <;> simp [rsrAux, rsrPend]
  | cons c cs ih =>
    intro m
    cases m with
    | normal =>
      rw [rsrAux]
      split
      · have h1 := ih (RsrMode.pending c)
        simp only [rsrPend] at h1 ⊢
        try simp only [List.length_cons]
        omega
      · simpa [rsrPend] using ih RsrMode.normal
    | pending p =>
      rw [rsrAux]
      split
      · have h1 := ih (RsrMode.skipRun p)
        simp only [rsrPend] at h1 ⊢
        try simp only [List.length_cons]
        omega
      · simp only [List.length_cons, rsrPend]
        split
        · have h1 := ih (RsrMode.pending c)
          simp only [rsrPend] at h1
          try simp only [List.length_cons]
          omega
        · have h1 := ih RsrMode.normal
          simp only [rsrPend] at h1
          try simp only [List.length_cons]
          omega
    | skipRun p =>
      rw [rsrAux]
      split
      · have h1 := ih (RsrMode.skipRun p)
        simp only [rsrPend] at h1 ⊢
        try simp only [List.length_cons]
        omega
      · split
        · have h1 := ih (RsrMode.pending c)
          simp only [rsrPend] at h1 ⊢
          try simp only [List.length_cons]
          omega
        · simpa [rsrPend] using ih RsrMode.normal

theorem dropWhile_length_le (p : Char → Bool) (l : List Char) :
    (l.dropWhile p).length ≤ l.length := by
  induction l with
  | nil => simp
  | cons c cs ih =>
    rw [List.dropWhile]
    split
    · exact Nat.le_trans ih (Nat.le_succ _)
    · simp

theorem trimJS_length (l : List Char) : (trimJS l).length ≤ l.length := by
  unfold trimJS
  rw [List.length_reverse]
  calc ((l.dropWhile fun c => isSpaceJS c).reverse.dropWhile fun c => isSpaceJS c).length
      ≤ (l.dropWhile fun c => isSpaceJS c).reverse.length := dropWhile_length_le _ _
    _ = (l.dropWhile fun c => isSpaceJS c).length := List.length_reverse _
    _ ≤ l.length := dropWhile_length_le _ _

theorem processData_length (l : List Char) : (processData l).length ≤ l.length := by
  unfold processData removeSymbRuns collapseWs removeHttpTokens
  calc (trimJS (rsrAux .normal (cwsAux false (rhtAux .normal l)))).length
      ≤ (rsrAux .normal (cwsAux false (rhtAux .normal l))).length := trimJS_length _
    _ ≤ rsrPend .normal + (cwsAux false (rhtAux .normal l)).length := rsrAux_length _ _
    _ = (cwsAux false (rhtAux .normal l)).length := by simp [rsrPend]
    _ ≤ (rhtAux .normal l).length := cwsAux_length _ _
    _ ≤ l.length := rhtAux_length _ _

/-- C2 counterexample: `processData` is not idempotent.  On `"a !! b"` the
symbol-run deletion removes `!!` and leaves two adjacent spaces, which a
second application collapses: `processData "a !! b" = "a  b"` but
`processData "a  b" = "a b"`. -/
theorem processData_not_idempotent :
    processDataStr (processDataStr "a !! b") ≠ processDataStr "a !! b" := by
  decide

/-- C2 (amended): `processData` is not idempotent in general; what does hold
is that each application of the normalizer is length non-increasing, so a
second pass can only shrink the already-normalized text further:
`|processData (processData t)| ≤ |processData t| ≤ |t|` for every `t`. -/
theorem processData_length_le (t : String) :
    (processDataStr (processDataStr t)).length ≤ (processDataStr t).length ∧
    (processDataStr t).length ≤ t.length := by
  refine ⟨?_, ?_⟩
  · exact processData_length (processDataStr t).data
  · exact processData_length t.data

/-! ## C3: artifact serialization by output format -/

/-- C3: for every save, the structured format (selected in the source by the
format string `"json"`) persists exactly
`JSON.stringify({ title, content: processedText })`, and every other format
string (the spec's `text`) persists the normalized text verbatim. -/
theorem saveData_content_by_format (hostOf : String → String)
    (url title text folder : String) :
    (saveDataFile hostOf url title text folder "json").data =
      "\x7b\"title\":" ++ jsonStringifyString title ++
        ",\"content\":" ++ jsonStringifyString text ++ "\x7d" ∧
    ∀ fmt : String, fmt ≠ "json" →
      (saveDataFile hostOf url title text folder fmt).data = text := by
  constructor
  · rfl
  · intro fmt h
    simp [saveDataFile, saveDataContent, h]

/-- Witness for C3 at a concrete save in the text format. -/
theorem saveData_content_by_format_witness :
    (saveDataFile (fun _ => "a.example") "https://a.example/" "T" "body text"
      "job1" "txt").data = "body text" :=
  (saveData_content_by_format (fun _ => "a.example") "https://a.example/" "T"
    "body text" "job1").2 "txt" (by decide)

/-! ## C4: response classification -/

/-- C4: a 403 response whose server header is the recognized edge proxy
(`cloudflare`) resolves with the challenge sentinel `"skip"`; every other
non-200 response — including a 403 with any other server header — rejects
with a `FetchError` carrying the status code and the status message. -/
theorem classifyResponse_spec (r : HttpResponse) :
    (r.statusCode = 403 ∧ r.serverHeader = some "cloudflare" →
      classifyResponse r = .ok "skip") ∧
    (r.statusCode ≠ 200 →
      ¬(r.statusCode = 403 ∧ r.serverHeader = some "cloudflare") →
      classifyResponse r = .error (.httpStatus r.statusCode r.statusMessage)) := by
  constructor
  · rintro ⟨h1, h2⟩
    unfold classifyResponse
    rw [if_neg (by omega), if_pos ⟨h1, h2⟩]
  · intro h1 h2
    unfold classifyResponse
    rw [if_neg h1, if_neg h2]

/-- Witness for C4: a cloudflare 403 yields the sentinel; a 403 with a
different server header yields a `FetchError` with its status code and
reason. -/
theorem classifyResponse_spec_witness :
    classifyResponse
        { statusCode := 403, statusMessage := "Forbidden",
          serverHeader := some "cloudflare", body := "" } = .ok "skip" ∧
    classifyResponse
        { statusCode := 403, statusMessage := "Forbidden",
          serverHeader := some "nginx", body := "" } =
      .error (.httpStatus 403 "Forbidden") := by
  constructor
  · exact (classifyResponse_spec _).1 ⟨rfl, rfl⟩
  · exact (classifyResponse_spec _).2 (by decide) (by simp)

/-! ## C5: the 50-URL cap of the explicit-list route -/

theorem fileLoopGo_eq (lines : List String) :
    ∀ n : Nat,
      fileLoopGo lines n =
        ((lines.filter nonblankLine).take (50 - n),
         decide (50 - n < (lines.filter nonblankLine).length)) := by
  induction lines with
  | nil =>
    intro n
    simp [fileLoopGo]
  | cons url rest ih =>
    intro n
    by_cases hb : nonblankLine url = true
    · by_cases h50 : 50 ≤ n
      · have hz : 50 - n = 0 := Nat.sub_eq_zero_of_le h50
        rw [fileLoopGo, if_pos hb, if_pos h50, ih n]
        simp [List.filter_cons, hb, hz]
      · have hsub : 50 - n = (50 - (n + 1)) + 1 := by omega
        rw [fileLoopGo, if_pos hb, if_neg h50, ih (n + 1)]
        simp only [List.filter_cons_of_pos hb, hsub, List.take_succ_cons,
          List.length_cons, Prod.mk.injEq]
        refine ⟨by trivial, ?_⟩
        rw [decide_eq_decide]
        omega
    · rw [fileLoopGo, if_neg hb, ih n]
      simp [List.filter_cons, hb]

/-- C5: the explicit-list route skips blank lines and dispatches exactly the
first 50 non-blank lines to `processUrl` — never more than 50 pipelines, and
lines beyond the cap are not scheduled — and the partial-processing notice is
sent exactly when the upload holds more than 50 non-blank URLs. -/
theorem file_route_caps_at_50 (lines : List String) :
    (fileRoute lines).1 = (lines.filter nonblankLine).take 50 ∧
    (fileRoute lines).1.length ≤ 50 ∧
    ((fileRoute lines).2 = true ↔ 50 < (lines.filter nonblankLine).length) := by
  rw [fileRoute, fileLoopGo_eq lines 0]
  refine ⟨rfl, ?_, ?_⟩
  · simp
  · simp

/-! ## C6: discovery pagination and the desired-count threshold -/

theorem discoverGo_spec (pages : Nat → List String) (desired : Nat) :
    ∀ (remaining page : Nat) (acc : List String),
      (discoverGo pages desired remaining page acc).1 ≤ remaining ∧
      (discoverGo pages desired remaining page acc).2 =
        acc ++ candRange pages page (discoverGo pages desired remaining page acc).1 ∧
      ∀ j, j + 1 < (discoverGo pages desired remaining page acc).1 →
        (acc ++ candRange pages page (j + 1)).length < desired := by
  intro remaining
  induction remaining with
  | zero =>
    intro page acc
    refine ⟨Nat.le_refl 0, by simp [discoverGo, candRange], ?_⟩
    intro j hj
    simp [discoverGo] at hj
  | succ rem ih =>
    intro page acc
    by_cases hd : desired ≤ (acc ++ pages page).length
    · rw [discoverGo, if_pos hd]
      refine ⟨by omega, by simp [candRange], ?_⟩
      intro j hj
      omega
    · obtain ⟨ih1, ih2, ih3⟩ := ih (page + 1) (acc ++ pages page)
      rw [discoverGo, if_neg hd]
      refine ⟨by simpa using Nat.succ_le_succ ih1, ?_, ?_⟩
      · rw [ih2]
        simp [candRange]
      · intro j hj
        rcases j with _ | j2
        · simp only [candRange, List.append_nil]
          simp only [List.length_append] at hd ⊢
          omega
        · have h3 := ih3 j2 (by simpa using hj)
          simp only [candRange]
          rw [← List.append_assoc]
          simpa [candRange] using h3

/-- C6 counterexample: the desired-count threshold is not checked mid-page.
With `desiredCount = 1` and a first search page yielding two candidates, the
loop returns two discovered candidates — more than `desiredCount` — even
though the threshold was crossed after the first one. -/
theorem discovery_exceeds_desiredCount :
    discoverLoop (fun _ => ["https://a.example/", "https://b.example/"]) 1 =
      (1, ["https://a.example/", "https://b.example/"]) ∧
    1 < (discoverLoop
      (fun _ => ["https://a.example/", "https://b.example/"]) 1).2.length :=
  ⟨rfl, by decide⟩

/-- C6 (amended): the discovery loop issues at most 20 search-page fetches,
its result is exactly the concatenation of the fetched pages' candidates, and
the desired-count threshold is checked only at page boundaries: every strict
prefix of fetched pages has fewer than `desiredCount` candidates, so the loop
stops at the first page whose cumulative count reaches the threshold — but
the final total may exceed `desiredCount` by up to the last page's yield. -/
theorem discovery_page_cap_and_stop (pages : Nat → List String) (desired : Nat) :
    (discoverLoop pages desired).1 ≤ 20 ∧
    (discoverLoop pages desired).2 =
      candRange pages 1 (discoverLoop pages desired).1 ∧
    ∀ k, 0 < k → k < (discoverLoop pages desired).1 →
      (candRange pages 1 k).length < desired := by
  obtain ⟨h1, h2, h3⟩ := discoverGo_spec pages desired 20 1 []
  refine ⟨h1, by simpa [discoverLoop] using h2, ?_⟩
  intro k hk1 hk2
  rcases k with _ | j
  · omega
  · have h4 := h3 j (by simpa [discoverLoop] using hk2)
    simpa [discoverLoop] using h4

/-- Witness for C6 at a concrete discovery job: one candidate per page and
`desiredCount = 5`, so the loop fetches five pages and every proper prefix is
below the threshold. -/
theorem discovery_page_cap_and_stop_witness :
    (discoverLoop (fun _ => ["https://a.example/"]) 5).1 ≤ 20 ∧
    (candRange (fun _ => ["https://a.example/"]) 1 1).length < 5 :=
  ⟨(discovery_page_cap_and_stop (fun _ => ["https://a.example/"]) 5).1,
   (discovery_page_cap_and_stop (fun _ => ["https://a.example/"]) 5).2.2 1
     (by decide) (by decide)⟩

/-! ## C1: the challenge sentinel and the two harvesting modes -/

theorem bulkGo_sentinel_aux (fetchOf : String → FetchOutcome)
    (hostOf : String → String) (u : String)
    (hu : fetchOf u = .resolved "skip") :
    ∀ (results processed saved : List String), u ∉ saved →
      u ∉ (bulkGo fetchOf hostOf results processed saved).2 := by
  intro results
  induction results with
  | nil =>
    intro processed saved hs
    simpa [bulkGo] using hs
  | cons v rest ih =>
    intro processed saved hs
    rw [bulkGo]
    by_cases h1 : v ∈ processed
    · rw [if_pos h1]
      exact ih _ _ hs
    · rw [if_neg h1]
      by_cases h2 : endsWithPdf v = true
      · rw [if_pos h2]
        exact ih _ _ hs
      · rw [if_neg h2]
        rcases hfv : fetchOf v with s | _
        · simp only [hfv]
          by_cases h3 : s = "skip"
          · rw [if_pos h3]
            exact ih _ _ hs
          · rw [if_neg h3]
            have hune : u ≠ v := by
              intro he
              rw [he, hfv] at hu
              injection hu with h4
              exact h3 h4
            have hs2 : u ∉ saved ++ [v] := by
              simp only [List.mem_append, List.mem_singleton]
              rintro (h | h)
              · exact hs h
              · exact hune h
            split
            · exact hs2
            · exact ih _ _ hs2
        · simp only [hfv]
          exact ih _ _ hs

/-- C1 counterexample: in explicit-list mode the challenge sentinel is NOT
skipped.  For a URL whose fetch resolves with the sentinel (here: a 403
response with a `server: cloudflare` header), `processUrl`'s then-branch runs
on the literal string `"skip"` and an artifact file is written for that URL —
refuting the claim that no artifact is ever written for a sentinel URL in
both modes. -/
theorem processUrl_saves_sentinel_artifact :
    fetchNetwork "https://blocked.example/" challengeEnv = .ok "skip" ∧
    processUrlJs [] challengeEnv (fun s => ("", s)) (fun _ => "blocked.example")
        "https://blocked.example/" "txt" "job1" =
      .ok [{ path := "job1/blocked.example.txt", data := "skip" }] ∧
    savedOf (processUrlJs [] challengeEnv (fun s => ("", s))
        (fun _ => "blocked.example") "https://blocked.example/" "txt" "job1") ≠ [] := by
  refine ⟨rfl, rfl, ?_⟩
  have he : savedOf (processUrlJs [] challengeEnv (fun s => ("", s))
      (fun _ => "blocked.example") "https://blocked.example/" "txt" "job1") =
      [{ path := "job1/blocked.example.txt", data := "skip" }] := rfl
  rw [he]
  simp

/-- C1 (amended): a URL whose fetch resolves with the challenge sentinel is
skipped — not saved and not treated as an error — in *discovery mode*, whose
loop tests `htmlContent === 'skip'`; in explicit-list mode `processUrl`
performs no such test and does write an artifact for the sentinel URL (see
the counterexample).  This theorem proves the discovery-mode half: a sentinel
URL never appears among the saved URLs of the `/bulk` harvesting loop. -/
theorem bulk_sentinel_url_never_saved (fetchOf : String → FetchOutcome)
    (hostOf : String → String) (results : List String) (u : String)
    (hu : fetchOf u = .resolved "skip") :
    u ∉ (bulkGo fetchOf hostOf results [] []).2 :=
  bulkGo_sentinel_aux fetchOf hostOf u hu results [] [] (List.not_mem_nil u)

/-- Witness for C1's discovery-mode theorem at a concrete job whose only
candidate resolves with the sentinel. -/
theorem bulk_sentinel_url_never_saved_witness :
    "https://challenge.example/" ∉
      (bulkGo (fun _ => FetchOutcome.resolved "skip")
        (fun _ => "challenge.example")
        ["https://challenge.example/", "https://other.example/"] [] []).2 :=
  bulk_sentinel_url_never_saved _ _ _ _ rfl

/-! ## C7: no URL is fetched-extracted-saved twice in one discovery job -/

theorem bulkGo_nodup_aux (fetchOf : String → FetchOutcome)
    (hostOf : String → String) :
    ∀ (results processed saved : List String),
      saved.Nodup → (∀ x, x ∈ saved → x ∈ processed) →
      ((bulkGo fetchOf hostOf results processed saved).2).Nodup := by
  intro results
  induction results with
  | nil =>
    intro processed saved h1 _
    simpa [bulkGo] using h1
  | cons v rest ih =>
    intro processed saved h1 h2
    rw [bulkGo]
    by_cases hv : v ∈ processed
    · rw [if_pos hv]
      exact ih _ _ h1 h2
    · rw [if_neg hv]
      by_cases hpdf : endsWithPdf v = true
      · rw [if_pos hpdf]
        exact ih _ _ h1 h2
      · rw [if_neg hpdf]
        rcases hfv : fetchOf v with s | _
        · simp only [hfv]
          by_cases hskip : s = "skip"
          · rw [if_pos hskip]
            exact ih _ _ h1 h2
          · rw [if_neg hskip]
            have hvs : v ∉ saved := fun hin => hv (h2 v hin)
            have h1b : (saved ++ [v]).Nodup := by
              rw [List.nodup_append]
              refine ⟨h1, List.nodup_singleton v, ?_⟩
              intro a ha hb
              rw [List.mem_singleton] at hb
              rw [hb] at ha
              exact hvs ha
            have h2b : ∀ x, x ∈ saved ++ [v] → x ∈ processed ++ [v] := by
              intro x hx
              rcases List.mem_append.mp hx with h | h
              · exact List.mem_append.mpr (Or.inl (h2 x h))
              · exact List.mem_append.mpr (Or.inr h)
            split
            · exact h1b
            · exact ih _ _ h1b h2b
        · simp only [hfv]
          exact ih _ _ h1 h2

/-- C7: within a single discovery job no URL completes the
fetch → extract → save pipeline twice: the list of URLs whose artifact was
written by the `/bulk` harvesting loop contains no duplicates, for every
fetch behaviour and every raw search-result list (duplicates included). -/
theorem bulk_saved_urls_nodup (fetchOf : String → FetchOutcome)
    (hostOf : String → String) (results : List String) :
    ((bulkGo fetchOf hostOf results [] []).2).Nodup :=
  bulkGo_nodup_aux fetchOf hostOf results [] [] List.nodup_nil
    (fun x hx => absurd hx (List.not_mem_nil x))

/-! ## C8: deletion scheduling for session directories -/

/-- C8 evaluation at the failing input: in the app.js `/bulk` variant a
discovery job whose only candidate fetch fails creates the session directory
up front but schedules zero deletions — the route itself schedules none and
no `saveData` call ever runs — contradicting the route's own response notice
that the folder "will be deleted after 3 minutes". -/
theorem bulk_appjs_no_deletion_when_no_saves :
    bulkRouteAppTrace (fun _ => none) 5 ["https://a.example/"] =
      { dirCreated := true, scheduledDeletions := 0 } := by
  rfl

/-- In the part_000 `/bulk` variant the route always schedules a deletion for
the up-front directory after responding, so every discovery-job directory has
at least one scheduled deletion there. -/
theorem bulkRouteV2_always_schedules (fetchOf : String → FetchOutcome)
    (hostOf : String → String) (results : List String) :
    1 ≤ (bulkRouteV2Trace fetchOf hostOf results).scheduledDeletions :=
  Nat.le_add_left 1 _

/-! ## C9: download of a missing session directory -/

/-- C9: when the requested job id has no session directory — the path is
absent or is not a directory — the download route answers 404 and creates no
archive file. -/
theorem download_missing_folder_notfound (fsState : List (String × FsEntry))
    (folderName : String) (h : fsKind fsState folderName ≠ some FsEntry.dir) :
    downloadRoute fsState folderName = { status := 404, archivePath := none } := by
  unfold downloadRoute
  rw [if_neg h]

/-- Witness for C9: a job id whose path is a plain file, and one that is
absent entirely. -/
theorem download_missing_folder_notfound_witness :
    downloadRoute [("job9", FsEntry.file)] "job9" =
      { status := 404, archivePath := none } ∧
    downloadRoute [("job9", FsEntry.file)] "missing" =
      { status := 404, archivePath := none } :=
  ⟨download_missing_folder_notfound _ _ (by decide),
   download_missing_folder_notfound _ _ (by decide)⟩

/-! ## C10: a cache hit breaks the explicit-list pipeline -/

/-- C10: on a cache hit `fetchWebPage` returns the cached string itself, so
`processUrl` — which chains `.then` on the fetch result — throws a
`TypeError` (`.then` is not a function on a string) and writes no artifact
for that URL instead of completing the fetch-extract-normalize-save
sequence. -/
theorem processUrl_cache_hit_type_error (cache : List (String × String))
    (env : FetchEnv) (extract : String → String × String)
    (hostOf : String → String) (url fmt folder v : String)
    (h : cacheLookup cache url = some v) :
    fetchWebPageJs cache url env = .raw v ∧
    processUrlJs cache env extract hostOf url fmt folder = .error .thenNotAFunction ∧
    savedOf (processUrlJs cache env extract hostOf url fmt folder) = [] := by
  have hf : fetchWebPageJs cache url env = .raw v := by
    unfold fetchWebPageJs
    rw [h]
  refine ⟨hf, ?_, ?_⟩
  · unfold processUrlJs
    rw [hf]
  · unfold processUrlJs
    rw [hf]
    rfl

/-- Witness for C10 at a concrete cache entry. -/
theorem processUrl_cache_hit_type_error_witness :
    fetchWebPageJs [("https://cached.example/", "<p>x</p>")]
        "https://cached.example/" challengeEnv = .raw "<p>x</p>" ∧
    processUrlJs [("https://cached.example/", "<p>x</p>")] challengeEnv
        (fun s => ("", s)) (fun _ => "cached.example")
        "https://cached.example/" "txt" "job2" = .error .thenNotAFunction ∧
    savedOf (processUrlJs [("https://cached.example/", "<p>x</p>")] challengeEnv
        (fun s => ("", s)) (fun _ => "cached.example")
        "https://cached.example/" "txt" "job2") = [] :=
  processUrl_cache_hit_type_error _ _ _ _ _ _ _ _ rfl

end Harvest
